import Mathlib

/-!
Verification development for the graph-js charting library.

The JavaScript sources are shallowly embedded into Lean: numbers become
rationals, arrays become lists, JS array indexing (which may yield
undefined) becomes Option-valued lookup, and exceptions become explicit
outcome values. Components whose source file is absent from the
repository snapshot (core/scale.js, core/interpolation.js,
core/axis-manager.js, core/config.js) are modelled from the
specification and marked as such in their doc comments.
-/

namespace GraphJS

/-- JS array read data[i]: undefined (none) when the index is negative or
past the end of the array. -/
def jsIndex {α : Type} (data : List α) (i : ℤ) : Option α :=
  if i < 0 then none else data[i.toNat]?

/-- Embedding of getPrevious from src/utils/arrays.js: returns data[0]
when index is at most 0 and data[index - 1] otherwise. -/
def getPrevious {α : Type} (index : ℤ) (data : List α) : Option α :=
  if index ≤ 0 then jsIndex data 0 else jsIndex data (index - 1)

/-- Embedding of getNext from src/utils/arrays.js: returns the last
element when index is at least data.length - 1 and data[index + 1]
otherwise. -/
def getNext {α : Type} (index : ℤ) (data : List α) : Option α :=
  if index ≥ (data.length : ℤ) - 1 then jsIndex data ((data.length : ℤ) - 1)
  else jsIndex data (index + 1)

/-- Embedding of arrays.negativeValues: keeps the strictly negative
entries. -/
def negativeValues (array : List ℚ) : List ℚ :=
  array.filter (fun value => value < 0)

/-- Embedding of arrays.positiveAndZeroValues: keeps the non-negative
entries. -/
def positiveAndZeroValues (array : List ℚ) : List ℚ :=
  array.filter (fun value => value ≥ 0)

/-- Embedding of arrays.getMax. The JS version returns -Infinity on an
empty array, which ℚ cannot express; it is only ever applied to
non-empty arrays, and the empty case here returns 0. -/
def getMax : List ℚ → ℚ
  | [] => 0
  | x :: xs => xs.foldl max x

/-- Embedding of arrays.getMinMax. The JS version yields undefined
min/max on an empty array; it is only ever applied to non-empty arrays,
and the empty case here returns (0, 0). -/
def getMinMax : List ℚ → ℚ × ℚ
  | [] => (0, 0)
  | x :: xs => (xs.foldl min x, xs.foldl max x)

/-- Embedding of the raw grid-cell geometry computed in the BasicGraph
constructor: xLength / (xAxis.scaleLabels.length - 1) and
yLength / (yAxis.scaleLabels.length - 1). -/
def rawGridRectSize (xLength yLength : ℚ) (xLabelCount yLabelCount : ℕ) : ℚ × ℚ :=
  (xLength / ((xLabelCount : ℚ) - 1), yLength / ((yLabelCount : ℚ) - 1))

/-- Embedding of the strict-grid snap in the BasicGraph constructor:
when grid.strict is set, both grid dimensions are replaced by the
smaller of the two. -/
def applyStrictGrid (strict : Bool) (gridRectSize : ℚ × ℚ) : ℚ × ℚ :=
  if strict then
    let gridRectLength := min gridRectSize.1 gridRectSize.2
    (gridRectLength, gridRectLength)
  else gridRectSize

/-- JS Math.round: rounds to the nearest integer, halves up. -/
def jsRound (q : ℚ) : ℤ := ⌊q + 1 / 2⌋

/-- Embedding of the optimise-square-size pass in BasicGraph.draw: when
the option is on and gridRectSize.x is fractional, round it to the
nearest integer, but decrement the result when it was a round-up that
the right-padding budget cannot absorb. -/
def optimiseSquareSizePass (optimiseSquareSize : Bool) (gridRectSizeX rightPadding : ℚ)
    (numberOfSquares : ℕ) : ℚ :=
  if optimiseSquareSize ∧ gridRectSizeX.den ≠ 1 then
    let preferredSquareSize : ℤ := jsRound gridRectSizeX
    let preferredSquareSize : ℤ :=
      if gridRectSizeX < (preferredSquareSize : ℚ) ∧
          rightPadding - ((preferredSquareSize : ℚ) - gridRectSizeX) * (numberOfSquares : ℚ) < 0
      then preferredSquareSize - 1
      else preferredSquareSize
    (preferredSquareSize : ℚ)
  else gridRectSizeX

/-- Outcome of one call to the assert helper. -/
inductive AssertOutcome
  | ok
  | warned
  | raised
  deriving DecidableEq

/-- Embedding of assert from src/utils/assert.js: a failed condition is
logged as a console warning when config.bypassOutOfBoundsDrawing is set,
and throws an Error otherwise. -/
def assert (bypassOutOfBoundsDrawing : Bool) (condition : Bool) : AssertOutcome :=
  if condition then .ok
  else if bypassOutOfBoundsDrawing then .warned
  else .raised

/-- Embedding of the tick-count validation at the top of the Axis
constructor (src/core/axis.js): assert(options.ticks > 0). -/
def axisTickCountCheck (bypassOutOfBoundsDrawing : Bool) (ticks : ℤ) : AssertOutcome :=
  assert bypassOutOfBoundsDrawing (decide (0 < ticks))

/-- Outcome of one Drawer primitive: raised models a thrown assertion
aborting the call before any canvas command runs, and drawn n models
the canvas draw commands executing after n logged warnings. -/
inductive PrimResult
  | raised
  | drawn (warnings : ℕ)
  deriving DecidableEq

/-- Runs a list of assert conditions in order, as consecutive calls to
the assert helper do: the first failure aborts with none when the
bypass flag is off; with the flag on every failure is counted as a
warning and execution continues. -/
def runAsserts (bypass : Bool) : List Bool → Option ℕ
  | [] => some 0
  | c :: cs =>
      if c then runAsserts bypass cs
      else if bypass then (runAsserts bypass cs).map (· + 1)
      else none

/-- Embedding of Drawer._coordinateSafetyCheck (src/core/drawing.js):
the two bounds asserts on the x and y coordinates. -/
def coordinateSafetyCheck (width height x y : ℚ) : List Bool :=
  [decide (x ≥ 0 ∧ x ≤ width), decide (y ≥ 0 ∧ y ≤ height)]

namespace Drawer

/-- Embedding of Drawer.circle: coordinate safety check, then the arc
and fill commands. -/
def circle (bypass : Bool) (width height x y : ℚ) : PrimResult :=
  match runAsserts bypass (coordinateSafetyCheck width height x y) with
  | none => .raised
  | some n => .drawn n

/-- Embedding of Drawer.horizontalLine: coordinate safety check plus the
bound check on x + len, then the line commands. -/
def horizontalLine (bypass : Bool) (width height x y len : ℚ) : PrimResult :=
  match runAsserts bypass
      (coordinateSafetyCheck width height x y ++ [decide (x + len ≥ 0 ∧ x + len ≤ width)]) with
  | none => .raised
  | some n => .drawn n

/-- Embedding of Drawer.verticalLine: coordinate safety check plus the
bound check on y + len, then the line commands. The source compares
y + len against canvas.width, and that comparison is kept as written. -/
def verticalLine (bypass : Bool) (width height x y len : ℚ) : PrimResult :=
  match runAsserts bypass
      (coordinateSafetyCheck width height x y ++ [decide (y + len ≥ 0 ∧ y + len ≤ width)]) with
  | none => .raised
  | some n => .drawn n

/-- Embedding of Drawer.text: coordinate safety check, then the
fillText command. -/
def text (bypass : Bool) (width height x y : ℚ) : PrimResult :=
  match runAsserts bypass (coordinateSafetyCheck width height x y) with
  | none => .raised
  | some n => .drawn n

end Drawer

namespace LegendManager

/-- Embedding of LegendManager.PADDING (src/legend/manager.js). -/
def PADDING : ℚ := 8

/-- Embedding of the legend key-box size: labelFontSize + 4. -/
def boxSize (labelFontSize : ℚ) : ℚ := labelFontSize + 4

/-- Embedding of LegendManager.getRequiredSpaceFor: twice the padding
plus the key-box size plus the measured label width. The measure
argument stands for the external text-measurement capability. -/
def getRequiredSpaceFor (measure : String → ℚ) (labelFontSize : ℚ) (item : String) : ℚ :=
  2 * PADDING + boxSize labelFontSize + measure item

/-- Embedding of the requiredSpace scalar computed once by the
LegendManager constructor for horizontal (top or bottom) legend
positions: the key-box size plus one padding unit. -/
def horizontalRequiredSpace (labelFontSize : ℚ) : ℚ :=
  boxSize labelFontSize + PADDING

/-- Embedding of the per-entry spacing list precomputed by
LegendManager.draw for horizontal orientation: each entry's measured
requiredSpace plus one inter-entry padding unit except after the last
entry. -/
def requiredSpaces (measure : String → ℚ) (labelFontSize : ℚ) (labels : List String) : List ℚ :=
  labels.mapIdx (fun index l =>
    getRequiredSpaceFor measure labelFontSize l +
      (if index ≠ labels.length - 1 then PADDING else 0))

/-- Embedding of the positioning loop at the end of LegendManager.draw:
the horizontal offset advanced entry by entry by the precomputed
spacings. -/
def finalXBegin (xBegin : ℚ) (spaces : List ℚ) : ℚ :=
  spaces.foldl (· + ·) xBegin

end LegendManager

/-- Floor of the base-10 logarithm of a positive rational: the integer
logarithm of the floor when the value is at least 1, and minus the
ceiling logarithm of the reciprocal below 1. -/
def ratLog10Floor (q : ℚ) : ℤ :=
  if 1 ≤ q then (Nat.log 10 ⌊q⌋₊ : ℤ)
  else -(Nat.clog 10 ⌈1 / q⌉₊ : ℤ)

/-- Modelled from the spec: the nice-number step selection used by
Scale (src/core/scale.js is absent from the repository snapshot). The
step is the value from the sequence 1, 2, 5, 10 times 10^k nearest
above the raw division. -/
def niceStep (raw : ℚ) : ℚ :=
  let magnitude : ℚ := (10 : ℚ) ^ ratLog10Floor raw
  let residual := raw / magnitude
  (if residual ≤ 1 then (1 : ℚ) else if residual ≤ 2 then 2
   else if residual ≤ 5 then 5 else 10) * magnitude

/-- Modelled from the spec: the inputs of the Scale component
(src/core/scale.js is absent). -/
structure ScaleConfig where
  min : ℚ
  max : ℚ
  tickCount : ℕ
  minimumScaleStep : Option ℚ := none
  optimiseTicks : Bool := true
  isNegativeScale : Bool := false
  startAtZero : Bool := false

/-- Modelled from the spec: the state of a constructed Scale
(src/core/scale.js is absent). The rounded minimum and the labels are
derived from the stored fields so that overwriting the step rebuilds
them with the new step. -/
structure Scale where
  min : ℚ
  tickCount : ℕ
  scaleStep : ℚ
  isNegativeScale : Bool
  startAtZero : Bool

/-- Modelled from the spec: the Scale step. The nice-number value over
(max - min) / tickCount when optimiseTicks is set and the exact
division otherwise; the degenerate extent max = min yields
minimumScaleStep or 1; minimumScaleStep forces a floor on the step. -/
def computeScaleStep (c : ScaleConfig) : ℚ :=
  if c.max = c.min then c.minimumScaleStep.getD 1
  else
    let raw := (c.max - c.min) / (c.tickCount : ℚ)
    let step := if c.optimiseTicks then niceStep raw else raw
    match c.minimumScaleStep with
    | some m => max step m
    | none => step

/-- Modelled from the spec: Scale construction. -/
def makeScale (c : ScaleConfig) : Scale :=
  { min := c.min, tickCount := c.tickCount, scaleStep := computeScaleStep c,
    isNegativeScale := c.isNegativeScale, startAtZero := c.startAtZero }

/-- Modelled from the spec: accessor for the computed step. -/
def Scale.getScaleStep (s : Scale) : ℚ := s.scaleStep

/-- Modelled from the spec: accessor for the tick count. -/
def Scale.getTickCount (s : Scale) : ℕ := s.tickCount

/-- Modelled from the spec: setTickStep overwrites the step with the
synchronized value; labels are rebuilt from the new step. -/
def Scale.setTickStep (s : Scale) (step : ℚ) : Scale :=
  { s with scaleStep := step }

/-- Modelled from the spec: roundedMinimum is floor(min / step) * step
unless the caller requested start-at-zero, in which case it is 0. -/
def Scale.roundedMinimum (s : Scale) : ℚ :=
  if s.startAtZero then 0 else ⌊s.min / s.scaleStep⌋ * s.scaleStep

/-- Modelled from the spec: getScaleLabels produces the values
roundedMinimum + i * step for i in [0, tickCount]; a negative-scale
instance negates the values and returns them in descending-toward-zero
order. Labels are represented by their numeric values; JS stringifies
them, sending both 0 and -0 to the string "0", which on rationals is
the identification -0 = 0. -/
def Scale.getScaleLabels (s : Scale) : List ℚ :=
  if s.isNegativeScale then
    ((List.range (s.tickCount + 1)).map
      (fun i : ℕ => -(s.roundedMinimum + (i : ℚ) * s.scaleStep))).reverse
  else
    (List.range (s.tickCount + 1)).map
      (fun i : ℕ => s.roundedMinimum + (i : ℚ) * s.scaleStep)

/-- Modelled from the spec: AxisManager.negativeScale detection, true
when any y-datum is negative (src/core/axis-manager.js is absent). -/
def negativeScaleDetect (data : List ℚ) : Bool :=
  data.any (fun x => decide (x < 0))

/-- Embedding of the negative Scale construction in
Axis._computeAxisScale (src/core/axis.js, Y axis with negatives): min
0, max the largest absolute value of the negative subset, half the
tick budget, isNegativeScale set. The JS budget division ticks / 2 is
exact for the even tick budgets this mode is used with and is modelled
by natural division. -/
def yNegativeScaleRaw (data : List ℚ) (ticks : ℕ) : Scale :=
  makeScale { min := 0, max := getMax ((negativeValues data).map (fun x => |x|)),
              tickCount := ticks / 2, isNegativeScale := true }

/-- Embedding of the positive Scale construction in
Axis._computeAxisScale (src/core/axis.js, Y axis): the extent of the
non-negative subset, with half the tick budget when a negative scale
exists and the full budget otherwise. -/
def yPositiveScaleRaw (data : List ℚ) (ticks : ℕ) (hasNegative : Bool) : Scale :=
  makeScale { min := (getMinMax (positiveAndZeroValues data)).1,
              max := (getMinMax (positiveAndZeroValues data)).2,
              tickCount := if hasNegative then ticks / 2 else ticks }

/-- The Y-axis scale state produced by Axis._computeAxisScale. The
positive-scale field keeps the source's spelling positveScale. -/
structure YAxisScales where
  positveScale : Scale
  negativeScale : Option Scale
  scaleStep : ℚ

/-- Embedding of Axis._computeAxisScale for the Y axis
(src/core/axis.js): with negatives present both scales are built, the
axis step becomes the larger of the two scale steps, and both scales
are overwritten with that common step. -/
def computeYAxisScales (data : List ℚ) (ticks : ℕ) : YAxisScales :=
  if negativeScaleDetect data then
    let negativeScale := yNegativeScaleRaw data ticks
    let positveScale := yPositiveScaleRaw data ticks true
    let scaleStep := max positveScale.getScaleStep negativeScale.getScaleStep
    { positveScale := positveScale.setTickStep scaleStep,
      negativeScale := some (negativeScale.setTickStep scaleStep),
      scaleStep := scaleStep }
  else
    let positveScale := yPositiveScaleRaw data ticks false
    { positveScale := positveScale, negativeScale := none,
      scaleStep := positveScale.getScaleStep }

/-- Embedding of Axis.generateScaleNumbers for the Y axis
(src/core/axis.js): with a negative scale, its labels come first; a
trailing zero label is popped when the positive labels also contain
zero; then the positive labels follow. -/
def generateYScaleNumbers (data : List ℚ) (ticks : ℕ) : List ℚ :=
  let axis := computeYAxisScales data ticks
  match axis.negativeScale with
  | some negativeScale =>
      let negLabels := negativeScale.getScaleLabels
      let negLabels :=
        if negLabels.getLast? = some 0 ∧ (0 : ℚ) ∈ axis.positveScale.getScaleLabels
        then negLabels.dropLast else negLabels
      negLabels ++ axis.positveScale.getScaleLabels
  | none => axis.positveScale.getScaleLabels

/-- Embedding of the X-axis Scale construction in Axis._computeAxisScale
(src/core/axis.js): domain 0 to maxLen - 1, tick budget ticks - 1, and
the minimum step bound to 1. -/
def xAxisScale (maxLen ticks : ℕ) (optimiseTicks : Bool) : Scale :=
  makeScale { min := 0, max := (maxLen : ℚ) - 1, tickCount := ticks - 1,
              minimumScaleStep := some 1, optimiseTicks := optimiseTicks }

/-- Embedding of Axis.generateScaleNumbers for the X axis with default
labels (src/core/axis.js): the values scaleStep * x for x in
[0, tickCount]. -/
def generateXScaleNumbers (maxLen ticks : ℕ) (optimiseTicks : Bool) : List ℚ :=
  (List.range ((xAxisScale maxLen ticks optimiseTicks).getTickCount + 1)).map
    (fun x : ℕ => (xAxisScale maxLen ticks optimiseTicks).scaleStep * (x : ℚ))

/-- A plotted point in pixel coordinates (src/core/point.js). -/
structure Point where
  x : ℚ
  y : ℚ
  deriving DecidableEq

instance : Inhabited Point := ⟨⟨0, 0⟩⟩

/-- A spline control-point pair for one interior data point. -/
structure ControlPoints where
  prev : Point
  next : Point
  deriving DecidableEq

/-- Modelled from the spec: interpolation.splineCurve
(src/core/interpolation.js is absent). Catmull-Rom style: the tangent
at the middle point is proportional to the difference of its
neighbours scaled by the tension; the prev and next control points sit
at the point minus and plus the tangent. -/
def splineCurve (previous current next : Point) (tension : ℚ) : ControlPoints :=
  { prev := ⟨current.x - (next.x - previous.x) * tension,
             current.y - (next.y - previous.y) * tension⟩,
    next := ⟨current.x + (next.x - previous.x) * tension,
             current.y + (next.y - previous.y) * tension⟩ }

/-- Embedding of the control-point loop in BasicGraph._drawData
(src/basic.graph.js, cubic interpolation): for k from 1 while
k < points.length - 1, push splineCurve(getPrevious(k, points),
points[k], getNext(k, points)). A JS undefined array access would
propagate as none. -/
def computeControlPoints (points : List Point) (tension : ℚ) :
    Option (List ControlPoints) :=
  (List.range' 1 (points.length - 2)).mapM (fun k : ℕ => do
    let previous ← getPrevious (k : ℤ) points
    let current ← jsIndex points (k : ℤ)
    let next ← getNext (k : ℤ) points
    pure (splineCurve previous current next tension))

end GraphJS

namespace GraphJS

/-- C10 counterexample: on the one-element array [0], getPrevious at
index 5 reads data[4], which is undefined (none), so the claim that the
functions never return undefined on a non-empty array is false. -/
theorem getPrevious_out_of_range_undefined :
    getPrevious 5 [(0 : ℚ)] = none ∧ getNext (-5) [(0 : ℚ), 1] = none := by
  constructor <;> rfl

/-- C10 (amended): for a non-empty array and an in-range index
(0 ≤ index < data.length), getPrevious returns data[0] when index ≤ 0
and data[index - 1] otherwise, getNext returns the last element when
index ≥ data.length - 1 and data[index + 1] otherwise, and neither
returns undefined. -/
theorem getPrevious_getNext_in_range {α : Type} (data : List α) (index : ℤ)
    (h0 : 0 ≤ index) (hlen : index < (data.length : ℤ)) :
    (getPrevious index data).isSome ∧ (getNext index data).isSome ∧
      (index ≤ 0 → getPrevious index data = data[0]?) ∧
      (0 < index → getPrevious index data = data[(index - 1).toNat]?) ∧
      ((data.length : ℤ) - 1 ≤ index → getNext index data = data[data.length - 1]?) ∧
      (index < (data.length : ℤ) - 1 → getNext index data = data[(index + 1).toNat]?) := by
  have hne : data ≠ [] := by
    intro h
    rw [h] at hlen
    simp at hlen
    omega
  have hlen0 : 0 < data.length := List.length_pos.mpr hne
  refine ⟨?_, ?_, ?_, ?_, ?_, ?_⟩
  · unfold getPrevious jsIndex
    by_cases h : index ≤ 0
    · simp [h, List.getElem?_eq_getElem hlen0]
    · have h1 : ¬ (index - 1 < 0) := by omega
      have h2 : index.toNat - 1 < data.length := by omega
      simp [h, h1, List.getElem?_eq_getElem h2]
  · unfold getNext jsIndex
    by_cases h : index ≥ (data.length : ℤ) - 1
    · have h1 : ¬ ((data.length : ℤ) - 1 < 0) := by omega
      have h2 : data.length - 1 < data.length := by omega
      simp [h, h1, List.getElem?_eq_getElem h2]
    · have h1 : ¬ (index + 1 < 0) := by omega
      have h2 : (index + 1).toNat < data.length := by omega
      simp only [h, if_false, h1, List.getElem?_eq_getElem h2, Option.isSome_some]
  · intro h
    unfold getPrevious jsIndex
    simp [h]
  · intro h
    have h1 : ¬ index ≤ 0 := by omega
    have h2 : ¬ (index - 1 < 0) := by omega
    unfold getPrevious jsIndex
    simp [h1, h2]
  · intro h
    have h1 : index ≥ (data.length : ℤ) - 1 := h
    have h2 : ¬ ((data.length : ℤ) - 1 < 0) := by omega
    have h3 : ((data.length : ℤ) - 1).toNat = data.length - 1 := by omega
    unfold getNext jsIndex
    simp [h1, h2, h3]
  · intro h
    have h1 : ¬ index ≥ (data.length : ℤ) - 1 := by omega
    have h2 : ¬ (index + 1 < 0) := by omega
    unfold getNext jsIndex
    simp [h1, h2]

/-- C10 witness: the amended theorem applied at index 1 over a concrete
three-element array. -/
theorem getPrevious_getNext_in_range_witness :
    (getPrevious 1 [(10 : ℚ), 20, 30]).isSome ∧ (getNext 1 [(10 : ℚ), 20, 30]).isSome ∧
      ((1 : ℤ) ≤ 0 → getPrevious 1 [(10 : ℚ), 20, 30] = [(10 : ℚ), 20, 30][0]?) ∧
      ((0 : ℤ) < 1 → getPrevious 1 [(10 : ℚ), 20, 30] = [(10 : ℚ), 20, 30][((1 : ℤ) - 1).toNat]?) ∧
      (((3 : ℕ) : ℤ) - 1 ≤ 1 → getNext 1 [(10 : ℚ), 20, 30] = [(10 : ℚ), 20, 30][3 - 1]?) ∧
      ((1 : ℤ) < ((3 : ℕ) : ℤ) - 1 → getNext 1 [(10 : ℚ), 20, 30] = [(10 : ℚ), 20, 30][((1 : ℤ) + 1).toNat]?) :=
  getPrevious_getNext_in_range [(10 : ℚ), 20, 30] 1 (by decide) (by decide)

/-- C4: with grid.strict enabled the grid geometry forces both
dimensions of the raw grid rect size to their minimum, and on the raw
example pair (12.3, 9.7) both dimensions come out as 9.7. -/
theorem strictGrid_forces_min :
    (∀ xLength yLength : ℚ, ∀ xLabelCount yLabelCount : ℕ,
      applyStrictGrid true (rawGridRectSize xLength yLength xLabelCount yLabelCount) =
        (min (rawGridRectSize xLength yLength xLabelCount yLabelCount).1
             (rawGridRectSize xLength yLength xLabelCount yLabelCount).2,
         min (rawGridRectSize xLength yLength xLabelCount yLabelCount).1
             (rawGridRectSize xLength yLength xLabelCount yLabelCount).2)) ∧
    applyStrictGrid true ((123 : ℚ) / 10, (97 : ℚ) / 10) = ((97 : ℚ) / 10, (97 : ℚ) / 10) := by
  constructor
  · intro xLength yLength xLabelCount yLabelCount
    rfl
  · unfold applyStrictGrid
    norm_num

/-- C5: for a fractional gridRectSize.x the optimise-square-size pass
yields the nearest integer, except that a round-up the right-padding
budget cannot absorb (rightPadding - (rounded - raw) * squares < 0) is
replaced by the floor, i.e. a round-down; moreover whenever the nearest
integer is not above the raw value it already is the floor. -/
theorem optimiseSquareSize_rounding (x rightPadding : ℚ) (n : ℕ)
    (hfrac : x.den ≠ 1) :
    optimiseSquareSizePass true x rightPadding n =
      (if x < (jsRound x : ℚ) ∧ rightPadding - ((jsRound x : ℚ) - x) * (n : ℚ) < 0
       then (⌊x⌋ : ℚ) else (jsRound x : ℚ)) ∧
    ((jsRound x : ℚ) ≤ x → jsRound x = ⌊x⌋) := by
  have hle : jsRound x ≤ ⌊x⌋ + 1 := by
    unfold jsRound
    calc ⌊x + 1 / 2⌋ ≤ ⌊x + 1⌋ := Int.floor_le_floor (by linarith)
    _ = ⌊x⌋ + 1 := by rw [Int.floor_add_one]
  have hge : ⌊x⌋ ≤ jsRound x := by
    unfold jsRound
    exact Int.floor_le_floor (by linarith)
  constructor
  · unfold optimiseSquareSizePass
    rw [if_pos ⟨rfl, hfrac⟩]
    change ((if x < ((jsRound x : ℤ) : ℚ) ∧
        rightPadding - (((jsRound x : ℤ) : ℚ) - x) * (n : ℚ) < 0
        then jsRound x - 1 else jsRound x : ℤ) : ℚ) = _
    by_cases hc : x < (jsRound x : ℚ) ∧ rightPadding - ((jsRound x : ℚ) - x) * (n : ℚ) < 0
    · rw [if_pos hc, if_pos hc]
      have hx : (⌊x⌋ : ℚ) ≤ x := Int.floor_le x
      have hlt : ⌊x⌋ < jsRound x := by
        have h2 : (⌊x⌋ : ℚ) < (jsRound x : ℚ) := lt_of_le_of_lt hx hc.1
        exact_mod_cast h2
      have heq : jsRound x = ⌊x⌋ + 1 := le_antisymm hle (by omega)
      rw [heq]
      push_cast
      ring
    · rw [if_neg hc, if_neg hc]
  · intro h
    have h2 : jsRound x ≤ ⌊x⌋ := Int.le_floor.mpr h
    omega

/-- C5 witness: the theorem applied at raw size 9.7 with 10 squares and
right padding 1, a budget too small for the round-up to 10, so the pass
rounds down to 9. -/
theorem optimiseSquareSize_rounding_witness :
    (optimiseSquareSizePass true ((97 : ℚ) / 10) 1 10 =
      (if (97 : ℚ) / 10 < (jsRound ((97 : ℚ) / 10) : ℚ) ∧
          (1 : ℚ) - ((jsRound ((97 : ℚ) / 10) : ℚ) - (97 : ℚ) / 10) * ((10 : ℕ) : ℚ) < 0
       then (⌊(97 : ℚ) / 10⌋ : ℚ) else (jsRound ((97 : ℚ) / 10) : ℚ))) ∧
    ((jsRound ((97 : ℚ) / 10) : ℚ) ≤ (97 : ℚ) / 10 → jsRound ((97 : ℚ) / 10) = ⌊(97 : ℚ) / 10⌋) :=
  optimiseSquareSize_rounding ((97 : ℚ) / 10) 1 10 (by norm_num [Rat.den])

/-- C7 counterexample: with config.bypassOutOfBoundsDrawing enabled, the
Axis tick-count assertion on a zero tick count only logs a warning and
does not raise, so the check is not fatal in every configuration. -/
theorem axisTickCountCheck_bypass_only_warns :
    axisTickCountCheck true 0 = AssertOutcome.warned ∧
      axisTickCountCheck true 0 ≠ AssertOutcome.raised := by
  constructor <;> decide

/-- C7 (amended): a tick count of zero or less makes the Axis
constructor assertion raise a fatal error whenever the
bypassOutOfBoundsDrawing leniency flag is off (its default), while with
the flag on it degrades to a logged warning and construction
continues. -/
theorem axisTickCountCheck_nonpositive (ticks : ℤ) (h : ticks ≤ 0) :
    axisTickCountCheck false ticks = AssertOutcome.raised ∧
      axisTickCountCheck true ticks = AssertOutcome.warned := by
  have hnot : ¬ (0 < ticks) := by omega
  unfold axisTickCountCheck assert
  simp [hnot]

/-- C7 witness: the amended theorem applied at tick count 0. -/
theorem axisTickCountCheck_nonpositive_witness :
    axisTickCountCheck false 0 = AssertOutcome.raised ∧
      axisTickCountCheck true 0 = AssertOutcome.warned :=
  axisTickCountCheck_nonpositive 0 (by decide)

/-- With the bypass flag enabled, running a list of assert conditions
never raises: the result is the number of failed conditions, each
logged as a warning. -/
theorem runAsserts_bypass_eq_count (cs : List Bool) :
    runAsserts true cs = some (cs.count false) := by
  induction cs with
  | nil => rfl
  | cons c cs ih =>
    cases c
    · simp [runAsserts, ih]
    · simp [runAsserts, ih]

/-- Without the bypass flag, a failed condition anywhere in the list
makes the assert run raise. -/
theorem runAsserts_strict_raises (cs : List Bool) (h : false ∈ cs) :
    runAsserts false cs = none := by
  induction cs with
  | nil => cases h
  | cons c cs ih =>
    cases c
    · simp [runAsserts]
    · have h2 : false ∈ cs := by simpa using h
      simp [runAsserts, ih h2]

/-- C8 counterexample: on a 100 by 100 canvas with bypass leniency
enabled, a circle request at the out-of-bounds x-coordinate 200 logs
one warning and still executes the draw commands (result drawn 1), so
the draw call is not skipped as claimed; without leniency the same
request raises. -/
theorem drawer_bypass_does_not_skip :
    Drawer.circle true 100 100 200 50 = PrimResult.drawn 1 ∧
      Drawer.circle false 100 100 200 50 = PrimResult.raised := by
  constructor <;> rfl

/-- C8 (amended): a drawing primitive (circle, horizontalLine,
verticalLine, text) asked to draw at a coordinate outside the canvas
bounds raises an error by default; with the bypass leniency mode
enabled it instead logs at least one warning and still executes the
draw call. -/
theorem drawer_out_of_bounds_behaviour (width height x y len : ℚ)
    (hout : ¬(x ≥ 0 ∧ x ≤ width) ∨ ¬(y ≥ 0 ∧ y ≤ height)) :
    (Drawer.circle false width height x y = PrimResult.raised ∧
     Drawer.horizontalLine false width height x y len = PrimResult.raised ∧
     Drawer.verticalLine false width height x y len = PrimResult.raised ∧
     Drawer.text false width height x y = PrimResult.raised) ∧
    ((∃ n, 1 ≤ n ∧ Drawer.circle true width height x y = PrimResult.drawn n) ∧
     (∃ n, 1 ≤ n ∧ Drawer.horizontalLine true width height x y len = PrimResult.drawn n) ∧
     (∃ n, 1 ≤ n ∧ Drawer.verticalLine true width height x y len = PrimResult.drawn n) ∧
     (∃ n, 1 ≤ n ∧ Drawer.text true width height x y = PrimResult.drawn n)) := by
  have hmem : false ∈ coordinateSafetyCheck width height x y := by
    unfold coordinateSafetyCheck
    rcases hout with h | h
    · have h2 : decide (x ≥ 0 ∧ x ≤ width) = false := decide_eq_false h
      simp [h2]
    · have h2 : decide (y ≥ 0 ∧ y ≤ height) = false := decide_eq_false h
      simp [h2]
  have hmemH : false ∈ coordinateSafetyCheck width height x y ++
      [decide (x + len ≥ 0 ∧ x + len ≤ width)] := List.mem_append_left _ hmem
  have hmemV : false ∈ coordinateSafetyCheck width height x y ++
      [decide (y + len ≥ 0 ∧ y + len ≤ width)] := List.mem_append_left _ hmem
  have hc : 1 ≤ (coordinateSafetyCheck width height x y).count false :=
    List.count_pos_iff.mpr hmem
  have hcH : 1 ≤ (coordinateSafetyCheck width height x y ++
      [decide (x + len ≥ 0 ∧ x + len ≤ width)]).count false := List.count_pos_iff.mpr hmemH
  have hcV : 1 ≤ (coordinateSafetyCheck width height x y ++
      [decide (y + len ≥ 0 ∧ y + len ≤ width)]).count false := List.count_pos_iff.mpr hmemV
  refine ⟨⟨?_, ?_, ?_, ?_⟩, ?_, ?_, ?_, ?_⟩
  · unfold Drawer.circle
    rw [runAsserts_strict_raises _ hmem]
  · unfold Drawer.horizontalLine
    rw [runAsserts_strict_raises _ hmemH]
  · unfold Drawer.verticalLine
    rw [runAsserts_strict_raises _ hmemV]
  · unfold Drawer.text
    rw [runAsserts_strict_raises _ hmem]
  · refine ⟨_, hc, ?_⟩
    unfold Drawer.circle
    rw [runAsserts_bypass_eq_count]
  · refine ⟨_, hcH, ?_⟩
    unfold Drawer.horizontalLine
    rw [runAsserts_bypass_eq_count]
  · refine ⟨_, hcV, ?_⟩
    unfold Drawer.verticalLine
    rw [runAsserts_bypass_eq_count]
  · refine ⟨_, hc, ?_⟩
    unfold Drawer.text
    rw [runAsserts_bypass_eq_count]

/-- C8 witness: the amended theorem applied on a 100 by 100 canvas at
the out-of-bounds coordinate (200, 50) with line length 5. -/
theorem drawer_out_of_bounds_behaviour_witness :
    ((Drawer.circle false 100 100 200 50 = PrimResult.raised ∧
      Drawer.horizontalLine false 100 100 200 50 5 = PrimResult.raised ∧
      Drawer.verticalLine false 100 100 200 50 5 = PrimResult.raised ∧
      Drawer.text false 100 100 200 50 = PrimResult.raised) ∧
     ((∃ n, 1 ≤ n ∧ Drawer.circle true 100 100 200 50 = PrimResult.drawn n) ∧
      (∃ n, 1 ≤ n ∧ Drawer.horizontalLine true 100 100 200 50 5 = PrimResult.drawn n) ∧
      (∃ n, 1 ≤ n ∧ Drawer.verticalLine true 100 100 200 50 5 = PrimResult.drawn n) ∧
      (∃ n, 1 ≤ n ∧ Drawer.text true 100 100 200 50 = PrimResult.drawn n))) :=
  drawer_out_of_bounds_behaviour 100 100 200 50 5 (Or.inl (by norm_num))

/-- C9 counterexample: with a text-measurement capability returning
width 10, label font size 12 and a single horizontal legend entry, the
per-entry spacings accumulated while positioning sum to 42 pixels,
while the requiredSpace scalar the constructor computes for the padding
calculation is 24 pixels: the two totals are not equal. -/
theorem legend_requiredSpace_mismatch :
    (LegendManager.requiredSpaces (fun _ => 10) 12 ["a"]).sum = 42 ∧
      LegendManager.horizontalRequiredSpace 12 = 24 ∧
      (LegendManager.requiredSpaces (fun _ => 10) 12 ["a"]).sum ≠
        LegendManager.horizontalRequiredSpace 12 := by
  have h1 : (LegendManager.requiredSpaces (fun _ => 10) 12 ["a"]).sum = 42 := by
    norm_num [LegendManager.requiredSpaces, LegendManager.getRequiredSpaceFor,
      LegendManager.boxSize, LegendManager.PADDING]
  have h2 : LegendManager.horizontalRequiredSpace 12 = 24 := by
    norm_num [LegendManager.horizontalRequiredSpace, LegendManager.boxSize,
      LegendManager.PADDING]
  refine ⟨h1, h2, ?_⟩
  rw [h1, h2]
  norm_num

/-- Folding addition over a list starting from x yields x plus the list
sum. -/
theorem foldl_add_eq_add_sum (x : ℚ) (l : List ℚ) :
    l.foldl (· + ·) x = x + l.sum := by
  induction l generalizing x with
  | nil => simp
  | cons a l ih =>
    rw [List.foldl_cons, ih, List.sum_cons]
    ring

/-- C9 (amended): for a horizontal legend the final accumulated offset
delta of the positioning loop equals the sum of the per-entry spacing
list precomputed by draw (one entry per label); the constructor's
requiredSpace scalar used by the padding calculation is instead the row
height boxSize + PADDING and in general differs from that sum. -/
theorem legend_offset_delta_eq_spacing_sum (measure : String → ℚ)
    (labelFontSize xBegin : ℚ) (labels : List String) :
    LegendManager.finalXBegin xBegin
        (LegendManager.requiredSpaces measure labelFontSize labels) =
      xBegin + (LegendManager.requiredSpaces measure labelFontSize labels).sum ∧
    (LegendManager.requiredSpaces measure labelFontSize labels).length = labels.length := by
  constructor
  · exact foldl_add_eq_add_sum xBegin _
  · simp [LegendManager.requiredSpaces]

/-- C1: for a Y axis over data containing a negative value, both scales
exist after construction and share the same scale step, which equals
the maximum of the two independently computed steps. -/
theorem yAxis_steps_synchronized (data : List ℚ) (ticks : ℕ)
    (h : negativeScaleDetect data = true) :
    ∃ neg, (computeYAxisScales data ticks).negativeScale = some neg ∧
      (computeYAxisScales data ticks).positveScale.scaleStep = neg.scaleStep ∧
      neg.scaleStep =
        max (yPositiveScaleRaw data ticks true).scaleStep
            (yNegativeScaleRaw data ticks).scaleStep := by
  refine ⟨(yNegativeScaleRaw data ticks).setTickStep
      (max (yPositiveScaleRaw data ticks true).getScaleStep
           (yNegativeScaleRaw data ticks).getScaleStep), ?_, ?_, ?_⟩ <;>
    simp [computeYAxisScales, h, Scale.setTickStep, Scale.getScaleStep]

/-- C1 witness: the theorem applied to the data set [-5, -3, 10, 20]
with a tick budget of 10. -/
theorem yAxis_steps_synchronized_witness :
    ∃ neg, (computeYAxisScales [(-5 : ℚ), -3, 10, 20] 10).negativeScale = some neg ∧
      (computeYAxisScales [(-5 : ℚ), -3, 10, 20] 10).positveScale.scaleStep = neg.scaleStep ∧
      neg.scaleStep =
        max (yPositiveScaleRaw [(-5 : ℚ), -3, 10, 20] 10 true).scaleStep
            (yNegativeScaleRaw [(-5 : ℚ), -3, 10, 20] 10).scaleStep :=
  yAxis_steps_synchronized [(-5 : ℚ), -3, 10, 20] 10 (by decide)

/-- C3: every constructed axis scale generates a label list of length
tickCount + 1: a freshly constructed Scale, a Scale after a setTickStep
synchronization, and the X-axis label generation all produce
tickCount + 1 labels. -/
theorem scaleLabels_length_tickCount_succ :
    (∀ c : ScaleConfig, (makeScale c).getScaleLabels.length = c.tickCount + 1) ∧
    (∀ (s : Scale) (step : ℚ),
      (s.setTickStep step).getScaleLabels.length = s.tickCount + 1) ∧
    (∀ (maxLen ticks : ℕ) (optimiseTicks : Bool),
      (generateXScaleNumbers maxLen ticks optimiseTicks).length =
        (xAxisScale maxLen ticks optimiseTicks).getTickCount + 1) := by
  have hlen : ∀ s : Scale, s.getScaleLabels.length = s.tickCount + 1 := by
    intro s
    unfold Scale.getScaleLabels
    split
    · rw [List.length_reverse, List.length_map, List.length_range]
    · rw [List.length_map, List.length_range]
  refine ⟨?_, ?_, ?_⟩
  · intro c
    rw [hlen]
    rfl
  · intro s step
    rw [hlen]
    rfl
  · intro maxLen ticks optimiseTicks
    unfold generateXScaleNumbers
    rw [List.length_map, List.length_range]

/-- A mapM over the Option monad whose function succeeds elementwise
returns the mapped list. -/
theorem mapM_option_eq_map {α β : Type} (f : α → Option β) (g : α → β) (l : List α)
    (h : ∀ a ∈ l, f a = some (g a)) : l.mapM f = some (l.map g) := by
  induction l with
  | nil => rfl
  | cons a l ih =>
    rw [List.mapM_cons, h a (List.mem_cons_self a l), List.map_cons,
      ih (fun b hb => h b (List.mem_cons_of_mem a hb))]
    rfl

/-- C2: over N plotted points the cubic control-point loop produces
exactly N - 2 control-point pairs, the pair at position j being the
splineCurve of the points at indices j, j + 1 and j + 2 (so aligned
with the interior points 1 to N - 2); for N < 3 the loop body never
runs and the result is empty with no error raised. -/
theorem computeControlPoints_count (points : List Point) (tension : ℚ) :
    (points.length < 3 → computeControlPoints points tension = some []) ∧
    (3 ≤ points.length →
      ∃ cps, computeControlPoints points tension = some cps ∧
        cps.length = points.length - 2 ∧
        ∀ j, j < points.length - 2 →
          cps[j]? = some (splineCurve (points.getD j default)
            (points.getD (j + 1) default) (points.getD (j + 2) default) tension)) := by
  constructor
  · intro h
    have h2 : points.length - 2 = 0 := by omega
    unfold computeControlPoints
    rw [h2]
    rfl
  · intro h
    have hmap : ∀ k ∈ List.range' 1 (points.length - 2),
        (do
          let previous ← getPrevious (k : ℤ) points
          let current ← jsIndex points (k : ℤ)
          let next ← getNext (k : ℤ) points
          pure (splineCurve previous current next tension)) =
        some (splineCurve (points.getD (k - 1) default) (points.getD k default)
          (points.getD (k + 1) default) tension) := by
      intro k hk
      rw [List.mem_range'] at hk
      obtain ⟨i, hi, hki⟩ := hk
      have hk1 : 1 ≤ k := by omega
      have hkN : k < points.length - 1 := by omega
      have hb1 : k - 1 < points.length := by omega
      have hb2 : k < points.length := by omega
      have hb3 : k + 1 < points.length := by omega
      have e1 : getPrevious (k : ℤ) points = some (points.getD (k - 1) default) := by
        unfold getPrevious jsIndex
        have c1 : ¬ ((k : ℤ) ≤ 0) := by omega
        have c2 : ¬ ((k : ℤ) - 1 < 0) := by omega
        have c3 : ((k : ℤ) - 1).toNat = k - 1 := by omega
        rw [if_neg c1, if_neg c2, c3, List.getElem?_eq_getElem hb1,
          List.getD_eq_getElem?_getD, List.getElem?_eq_getElem hb1]
        rfl
      have e2 : jsIndex points (k : ℤ) = some (points.getD k default) := by
        unfold jsIndex
        have c1 : ¬ ((k : ℤ) < 0) := by omega
        have c2 : ((k : ℤ)).toNat = k := by omega
        rw [if_neg c1, c2, List.getElem?_eq_getElem hb2,
          List.getD_eq_getElem?_getD, List.getElem?_eq_getElem hb2]
        rfl
      have e3 : getNext (k : ℤ) points = some (points.getD (k + 1) default) := by
        unfold getNext jsIndex
        have c1 : ¬ ((k : ℤ) ≥ (points.length : ℤ) - 1) := by omega
        have c2 : ¬ ((k : ℤ) + 1 < 0) := by omega
        have c3 : ((k : ℤ) + 1).toNat = k + 1 := by omega
        rw [if_neg c1, if_neg c2, c3, List.getElem?_eq_getElem hb3,
          List.getD_eq_getElem?_getD, List.getElem?_eq_getElem hb3]
        rfl
      rw [e1, e2, e3]
      rfl
    have hmapEq : computeControlPoints points tension =
        some ((List.range' 1 (points.length - 2)).map
          (fun k => splineCurve (points.getD (k - 1) default) (points.getD k default)
            (points.getD (k + 1) default) tension)) := by
      unfold computeControlPoints
      exact mapM_option_eq_map _ _ _ hmap
    refine ⟨_, hmapEq, ?_, ?_⟩
    · rw [List.length_map, List.length_range']
    · intro j hj
      have hjlen : j < ((List.range' 1 (points.length - 2)).map
          (fun k => splineCurve (points.getD (k - 1) default) (points.getD k default)
            (points.getD (k + 1) default) tension)).length := by
        rw [List.length_map, List.length_range']
        exact hj
      rw [List.getElem?_eq_getElem hjlen]
      congr 1
      rw [List.getElem_map, List.getElem_range']
      have e : 1 + 1 * j = j + 1 := by omega
      rw [e]
      have e1 : j + 1 - 1 = j := by omega
      have e2 : j + 1 + 1 = j + 2 := by omega
      rw [e1, e2]

/-- C2 witness: the theorem applied to an empty point list and to a
concrete four-point list with tension one half, where both hypotheses
hold by computation. -/
theorem computeControlPoints_count_witness :
    (computeControlPoints ([] : List Point) (1 / 2) = some []) ∧
    (∃ cps, computeControlPoints
        [⟨0, 0⟩, ⟨1, 1⟩, ⟨2, 0⟩, ⟨3, 1⟩] (1 / 2) = some cps ∧
      cps.length = ([⟨0, 0⟩, ⟨1, 1⟩, ⟨2, 0⟩, (⟨3, 1⟩ : Point)]).length - 2 ∧
      ∀ j, j < ([⟨0, 0⟩, ⟨1, 1⟩, ⟨2, 0⟩, (⟨3, 1⟩ : Point)]).length - 2 →
        cps[j]? = some (splineCurve
          (([⟨0, 0⟩, ⟨1, 1⟩, ⟨2, 0⟩, (⟨3, 1⟩ : Point)]).getD j default)
          (([⟨0, 0⟩, ⟨1, 1⟩, ⟨2, 0⟩, (⟨3, 1⟩ : Point)]).getD (j + 1) default)
          (([⟨0, 0⟩, ⟨1, 1⟩, ⟨2, 0⟩, (⟨3, 1⟩ : Point)]).getD (j + 2) default) (1 / 2))) :=
  ⟨(computeControlPoints_count ([] : List Point) (1 / 2)).1 (by decide),
   (computeControlPoints_count [⟨0, 0⟩, ⟨1, 1⟩, ⟨2, 0⟩, ⟨3, 1⟩] (1 / 2)).2 (by decide)⟩

/-- The seed of a running maximum never exceeds the fold result. -/
theorem le_foldl_max (xs : List ℚ) (x : ℚ) : x ≤ xs.foldl max x := by
  induction xs generalizing x with
  | nil => exact le_refl x
  | cons y ys ih =>
    calc x ≤ max x y := le_max_left x y
    _ ≤ (y :: ys).foldl max x := ih (max x y)

/-- A member of the seeded list is bounded by the max fold. -/
theorem mem_le_foldl_max (a : ℚ) (xs : List ℚ) (x : ℚ) (h : a ∈ x :: xs) :
    a ≤ xs.foldl max x := by
  induction xs generalizing x with
  | nil =>
    rw [List.mem_singleton] at h
    exact le_of_eq h
  | cons y ys ih =>
    rw [List.foldl_cons]
    rcases List.mem_cons.mp h with h1 | h2
    · calc a = x := h1
      _ ≤ max x y := le_max_left x y
      _ ≤ ys.foldl max (max x y) := le_foldl_max ys (max x y)
    · rcases List.mem_cons.mp h2 with h3 | h4
      · calc a = y := h3
        _ ≤ max x y := le_max_right x y
        _ ≤ ys.foldl max (max x y) := le_foldl_max ys (max x y)
      · exact ih (max x y) (List.mem_cons_of_mem _ h4)

/-- Every member of a list is bounded by getMax. -/
theorem le_getMax {a : ℚ} {l : List ℚ} (h : a ∈ l) : a ≤ getMax l := by
  match l with
  | [] => cases h
  | x :: xs => exact mem_le_foldl_max a xs x h

/-- The nice-number step is always positive: the multiplier lies in
1, 2, 5, 10 and the magnitude is a power of ten. -/
theorem niceStep_pos (raw : ℚ) : 0 < niceStep raw := by
  unfold niceStep
  have hmag : (0 : ℚ) < (10 : ℚ) ^ ratLog10Floor raw := zpow_pos (by norm_num) _
  apply mul_pos
  · split_ifs <;> norm_num
  · exact hmag

/-- The Scale step is positive for a proper extent, a positive tick
count and no minimum-step floor. -/
theorem computeScaleStep_pos (c : ScaleConfig) (hmax : c.min < c.max)
    (htc : 0 < c.tickCount) (hmss : c.minimumScaleStep = none) :
    0 < computeScaleStep c := by
  have hraw : 0 < (c.max - c.min) / (c.tickCount : ℚ) := by
    apply div_pos (by linarith)
    exact_mod_cast htc
  unfold computeScaleStep
  rw [if_neg (by intro hc; rw [hc] at hmax; exact lt_irrefl _ hmax)]
  change (0 : ℚ) < (match c.minimumScaleStep with
    | some m => max (if c.optimiseTicks
        then niceStep ((c.max - c.min) / (c.tickCount : ℚ))
        else (c.max - c.min) / (c.tickCount : ℚ)) m
    | none => (if c.optimiseTicks
        then niceStep ((c.max - c.min) / (c.tickCount : ℚ))
        else (c.max - c.min) / (c.tickCount : ℚ)) : ℚ)
  rw [hmss]
  change (0 : ℚ) < (if c.optimiseTicks
      then niceStep ((c.max - c.min) / (c.tickCount : ℚ))
      else (c.max - c.min) / (c.tickCount : ℚ))
  cases hb : c.optimiseTicks with
  | false => simpa [hb] using hraw
  | true => simpa [hb] using niceStep_pos ((c.max - c.min) / (c.tickCount : ℚ))

/-- The step of the negative Y scale is positive for data containing a
negative value and a tick budget of at least 2. -/
theorem yNegativeScaleRaw_step_pos (data : List ℚ) (ticks : ℕ)
    (hneg : negativeScaleDetect data = true) (hticks : 2 ≤ ticks) :
    0 < (yNegativeScaleRaw data ticks).getScaleStep := by
  obtain ⟨x, hxmem, hxneg⟩ : ∃ x ∈ data, x < 0 := by
    unfold negativeScaleDetect at hneg
    simpa using hneg
  have habs : |x| ∈ (negativeValues data).map (fun y => |y|) := by
    apply List.mem_map_of_mem
    unfold negativeValues
    rw [List.mem_filter]
    exact ⟨hxmem, by simpa using hxneg⟩
  have hM : 0 < getMax ((negativeValues data).map (fun y => |y|)) :=
    lt_of_lt_of_le (abs_pos.mpr (ne_of_lt hxneg)) (le_getMax habs)
  have htc : 0 < ticks / 2 := by omega
  exact computeScaleStep_pos _ hM htc rfl

/-- The label list of a scale with a non-zero step has no duplicates. -/
theorem scaleLabels_nodup (s : Scale) (hs : s.scaleStep ≠ 0) :
    s.getScaleLabels.Nodup := by
  have hinj : Function.Injective
      (fun i : ℕ => s.roundedMinimum + (i : ℚ) * s.scaleStep) := by
    intro a b hab
    simp only at hab
    have h2 : (a : ℚ) * s.scaleStep = (b : ℚ) * s.scaleStep := by linarith
    have h3 : (a : ℚ) = (b : ℚ) := mul_right_cancel₀ hs h2
    exact_mod_cast h3
  have hinj2 : Function.Injective
      (fun i : ℕ => -(s.roundedMinimum + (i : ℚ) * s.scaleStep)) :=
    neg_injective.comp hinj
  unfold Scale.getScaleLabels
  split
  · exact List.nodup_reverse.mpr (List.Nodup.map hinj2 (List.nodup_range _))
  · exact List.Nodup.map hinj (List.nodup_range _)

/-- The concatenation step of generateScaleNumbers never duplicates the
zero label: for any synchronized positive scale (minimum pMin, ptc
ticks) and negative scale (minimum 0, ntc ticks) sharing a non-zero
step, the zero count of the assembled label list is at most one. -/
theorem assembled_labels_zero_count (pMin step : ℚ) (ptc ntc : ℕ)
    (hs : step ≠ 0) :
    ((if (Scale.getScaleLabels ⟨0, ntc, step, true, false⟩).getLast? = some 0 ∧
          (0 : ℚ) ∈ Scale.getScaleLabels ⟨pMin, ptc, step, false, false⟩
       then (Scale.getScaleLabels ⟨0, ntc, step, true, false⟩).dropLast
       else Scale.getScaleLabels ⟨0, ntc, step, true, false⟩) ++
      Scale.getScaleLabels ⟨pMin, ptc, step, false, false⟩).count 0 ≤ 1 := by
  have hrm : (Scale.roundedMinimum ⟨0, ntc, step, true, false⟩) = 0 := by
    unfold Scale.roundedMinimum
    norm_num
  have hlabels : Scale.getScaleLabels ⟨0, ntc, step, true, false⟩ =
      ((List.range (ntc + 1)).map (fun i : ℕ => -((i : ℚ) * step))).reverse := by
    unfold Scale.getScaleLabels
    rw [if_pos rfl]
    rw [hrm]
    simp
  have hlast : (Scale.getScaleLabels ⟨0, ntc, step, true, false⟩).getLast? = some 0 := by
    rw [hlabels, List.getLast?_eq_head?_reverse, List.reverse_reverse, List.head?_map]
    rw [List.head?_eq_getElem?, List.getElem?_range (by omega : 0 < ntc + 1)]
    simp
  have hmem0 : (0 : ℚ) ∈ Scale.getScaleLabels ⟨0, ntc, step, true, false⟩ := by
    rw [hlabels, List.mem_reverse, List.mem_map]
    exact ⟨0, List.mem_range.mpr (by omega), by norm_num⟩
  have hnodupN : (Scale.getScaleLabels ⟨0, ntc, step, true, false⟩).Nodup :=
    scaleLabels_nodup _ hs
  have hcount1 : (Scale.getScaleLabels ⟨0, ntc, step, true, false⟩).count 0 = 1 :=
    List.count_eq_one_of_mem hnodupN hmem0
  have hnodupP : (Scale.getScaleLabels ⟨pMin, ptc, step, false, false⟩).Nodup :=
    scaleLabels_nodup _ hs
  have hcountP : (Scale.getScaleLabels ⟨pMin, ptc, step, false, false⟩).count 0 ≤ 1 :=
    List.nodup_iff_count_le_one.mp hnodupP 0
  by_cases hposmem : (0 : ℚ) ∈ Scale.getScaleLabels ⟨pMin, ptc, step, false, false⟩
  · rw [if_pos ⟨hlast, hposmem⟩, List.count_append]
    have hsplit : (Scale.getScaleLabels ⟨0, ntc, step, true, false⟩).dropLast ++ [0] =
        Scale.getScaleLabels ⟨0, ntc, step, true, false⟩ :=
      List.dropLast_append_getLast? 0 (by rw [Option.mem_def, hlast])
    have hdrop : (Scale.getScaleLabels ⟨0, ntc, step, true, false⟩).dropLast.count 0 = 0 := by
      have h2 := congrArg (fun l => List.count (0 : ℚ) l) hsplit
      simp only [List.count_append] at h2
      rw [hcount1] at h2
      simp at h2
      omega
    omega
  · rw [if_neg (fun hc => hposmem hc.2), List.count_append]
    have hcount0 : (Scale.getScaleLabels ⟨pMin, ptc, step, false, false⟩).count 0 = 0 :=
      List.count_eq_zero_of_not_mem hposmem
    omega

/-- C6: for a Y axis over data with both a negative and a positive
scale, the final label list is the negative scale's labels (descending
toward zero) concatenated with the positive scale's labels with the
shared zero boundary entry deduplicated, so the zero label occurs at
most once in the concatenation. -/
theorem yAxis_labels_no_duplicate_zero (data : List ℚ) (ticks : ℕ)
    (hneg : negativeScaleDetect data = true) (hticks : 2 ≤ ticks) :
    (generateYScaleNumbers data ticks).count 0 ≤ 1 := by
  have hstep : 0 < max (yPositiveScaleRaw data ticks true).getScaleStep
      (yNegativeScaleRaw data ticks).getScaleStep :=
    lt_of_lt_of_le (yNegativeScaleRaw_step_pos data ticks hneg hticks) (le_max_right _ _)
  have hkey := assembled_labels_zero_count
    (getMinMax (positiveAndZeroValues data)).1
    (max (yPositiveScaleRaw data ticks true).getScaleStep
      (yNegativeScaleRaw data ticks).getScaleStep)
    (ticks / 2) (ticks / 2) (ne_of_gt hstep)
  have hform : generateYScaleNumbers data ticks =
      (if (Scale.getScaleLabels ⟨0, ticks / 2,
            max (yPositiveScaleRaw data ticks true).getScaleStep
              (yNegativeScaleRaw data ticks).getScaleStep, true, false⟩).getLast? =
              some 0 ∧
          (0 : ℚ) ∈ Scale.getScaleLabels ⟨(getMinMax (positiveAndZeroValues data)).1,
            ticks / 2,
            max (yPositiveScaleRaw data ticks true).getScaleStep
              (yNegativeScaleRaw data ticks).getScaleStep, false, false⟩
        then (Scale.getScaleLabels ⟨0, ticks / 2,
            max (yPositiveScaleRaw data ticks true).getScaleStep
              (yNegativeScaleRaw data ticks).getScaleStep, true, false⟩).dropLast
        else Scale.getScaleLabels ⟨0, ticks / 2,
            max (yPositiveScaleRaw data ticks true).getScaleStep
              (yNegativeScaleRaw data ticks).getScaleStep, true, false⟩) ++
        Scale.getScaleLabels ⟨(getMinMax (positiveAndZeroValues data)).1, ticks / 2,
          max (yPositiveScaleRaw data ticks true).getScaleStep
            (yNegativeScaleRaw data ticks).getScaleStep, false, false⟩ := by
    unfold generateYScaleNumbers computeYAxisScales
    rw [hneg]
    rfl
  rw [hform]
  exact hkey

/-- C6 witness: the theorem applied to the data set [-5, -3, 10, 20]
with a tick budget of 10. -/
theorem yAxis_labels_no_duplicate_zero_witness :
    (generateYScaleNumbers [(-5 : ℚ), -3, 10, 20] 10).count 0 ≤ 1 :=
  yAxis_labels_no_duplicate_zero [(-5 : ℚ), -3, 10, 20] 10 (by decide) (by decide)

end GraphJS
